import Mathlib

/-
Verification of the MiniTrace coverage subsystem (runtime/mini_trace.cc,
runtime/mini_trace.h) as a shallow embedding.

The embedding models:
  - the per-method coverage dump `MiniTrace::DumpCoverageData(std::ostream&, ArtMethod*)`
    (null checks, fast-path word scan, emit loop with read-and-clear);
  - the per-class / all-classes dump walk (`DumpCoverageDataClassVisitor`,
    `ClassLinker::VisitClasses`);
  - the file-level dump `MiniTrace::DumpCoverageData(bool start)` with its
    `IsMiniTraceActive()` guard and envelope records;
  - the lifecycle operations `Start`, `Stop`, `Shutdown` over an abstract
    runtime state (the `the_trace_` singleton pointer modelled as a Bool,
    file-system conditions modelled as Bools);
  - the class-eligibility filter `MiniTrace::PostClassPrepare`.

A method's raw coverage pointer `uint8_t* data` is modelled as a total
function `Nat → Nat` (the byte of memory at each offset from the pointer):
the C++ code reads through the raw pointer with no bound attached, so the
model cannot assume any array extent.  Byte values in the machine are
0..255; no property below depends on the bound, so plain `Nat` is used.
-/

namespace MiniTrace

/-- One emitted coverage line (`os << StringPrintf("%p\t%s\t%s\t%s\t%s\t%d\t", ...)`
followed by the run of `0`/`1` characters).  `methodId` stands for the `%p`
pointer value, the string fields for the `%s` fields (the external
`PrettyDescriptor` formatting is kept as the raw string), `insns` for the
printed `%d` instruction count, and `bits` for the `0`/`1` characters. -/
structure CovLine where
  methodId : Nat
  declaringClass : String
  methodName : String
  signature : String
  sourceFile : String
  insns : Nat
  bits : List Char

/-- A method as seen by `MiniTrace::DumpCoverageData(std::ostream&, ArtMethod*)`:
`isMiniTraceable` is `method->IsMiniTraceable()`, `hasCodeItem` is
`method->GetCodeItem() != nullptr`, `hasCoverage` is
`method->GetCoverageData() != nullptr`, `coverage` is the memory reachable
from that pointer (byte at each offset), and `insnsSize` is
`method->DexInstructions().InsnsSizeInCodeUnits()` (a `uint16_t` in the
source; no claim depends on the 2^16 bound). -/
structure MethodInfo where
  methodId : Nat
  isMiniTraceable : Bool
  hasCodeItem : Bool
  hasCoverage : Bool
  coverage : Nat → Nat
  insnsSize : Nat
  declaringClassDescriptor : String
  methodName : String
  signature : String
  sourceFile : String

/-- The test `p[i] != 0` for `uint32_t* p = reinterpret_cast<uint32_t*>(data)`:
the 32-bit word at byte offset `4*i` is nonzero iff one of its four bytes is
nonzero (independent of endianness). -/
def wordNonzero (data : Nat → Nat) (i : Nat) : Bool :=
  data (4 * i) != 0 || data (4 * i + 1) != 0 || data (4 * i + 2) != 0 || data (4 * i + 3) != 0

/-- The fast-path scan of `DumpCoverageData`:
`int length = (insns_size >> 1); for (int i = 0; i <= length; i++) if (p[i] != 0) ...`
— true iff some 32-bit word at index `0..length` (inclusive) is nonzero. -/
def fastScanVisited (data : Nat → Nat) (n : Nat) : Bool :=
  (List.range (n >>> 1 + 1)).any (wordNonzero data)

/-- The emit loop
`for (int i = 0; i < insns_size; i++) { if (data[i] != 0) { os << 1; data[i] = 0; } else { os << 0; } }`
threaded state-passing translation: `dumpLoop data i fuel` runs the loop body
for indices `i, i+1, ..., i+fuel-1`, returning the emitted characters and the
updated memory. -/
def dumpLoop : (Nat → Nat) → Nat → Nat → List Char × (Nat → Nat)
  | data, _, 0 => ([], data)
  | data, i, fuel + 1 =>
    if data i != 0 then
      let r := dumpLoop (fun j => if j = i then 0 else data j) (i + 1) fuel
      ('1' :: r.1, r.2)
    else
      let r := dumpLoop data (i + 1) fuel
      ('0' :: r.1, r.2)

/-- The character the emit loop prints for byte index `i`. -/
def emitChar (data : Nat → Nat) (i : Nat) : Char :=
  if data i != 0 then '1' else '0'

/-- MiniTrace::DumpCoverageData(std::ostream&, ArtMethod*) for a non-null
method, translated check by check in source order: `IsMiniTraceable`,
`GetCodeItem() == nullptr`, `data == nullptr`, `insns_size == 0`, the
fast-path skip, then the header print and the emit loop.  Returns the
emitted line (if any) and the method with its coverage memory updated. -/
def DumpCoverageDataCore (m : MethodInfo) : Option CovLine × MethodInfo :=
  if !m.isMiniTraceable then (none, m)
  else if !m.hasCodeItem then (none, m)
  else if !m.hasCoverage then (none, m)
  else if m.insnsSize == 0 then (none, m)
  else if m.coverage 0 == 0 && !fastScanVisited m.coverage m.insnsSize then (none, m)
  else
    let r := dumpLoop m.coverage 0 m.insnsSize
    (some { methodId := m.methodId
            declaringClass := m.declaringClassDescriptor
            methodName := m.methodName
            signature := m.signature
            sourceFile := m.sourceFile
            insns := m.insnsSize
            bits := r.1 },
     { m with coverage := r.2 })

/-- The `method == NULL` check at the top of `DumpCoverageData`: a null
method emits nothing and there is no method state to change. -/
def DumpCoverageDataPtr : Option MethodInfo → Option CovLine × Option MethodInfo
  | none => (none, none)
  | some m =>
    let r := DumpCoverageDataCore m
    (r.1, some r.2)

/-- Modelled from the spec for the refinement comparison of the fast path
(section 4.3: the fast-path skip "is an optimization over always scanning,
not a semantic difference"): the reference version that always performs the
word scan and skips exactly when the scan finds nothing, with no
`data[0] == 0` shortcut.  Identical to `DumpCoverageDataCore` otherwise. -/
def DumpCoverageDataNoFast (m : MethodInfo) : Option CovLine × MethodInfo :=
  if !m.isMiniTraceable then (none, m)
  else if !m.hasCodeItem then (none, m)
  else if !m.hasCoverage then (none, m)
  else if m.insnsSize == 0 then (none, m)
  else if !fastScanVisited m.coverage m.insnsSize then (none, m)
  else
    let r := dumpLoop m.coverage 0 m.insnsSize
    (some { methodId := m.methodId
            declaringClass := m.declaringClassDescriptor
            methodName := m.methodName
            signature := m.signature
            sourceFile := m.sourceFile
            insns := m.insnsSize
            bits := r.1 },
     { m with coverage := r.2 })

/-- Number of granule bytes per the spec's data model (section 3,
CoverageBitmap: "one byte per two-instruction-unit granule"), i.e.
`ceil(insns_size / 2)`. -/
def ceilHalf (n : Nat) : Nat := (n + 1) / 2

/-- Byte offsets read by the fast-path scan in the worst case (all words
found zero): words `0..insns_size>>1` inclusive, four bytes each. -/
def scanByteReads (n : Nat) : List Nat :=
  (List.range (n >>> 1 + 1)).flatMap (fun i => [4 * i, 4 * i + 1, 4 * i + 2, 4 * i + 3])

/-- Byte offsets read (and possibly cleared) by the emit loop:
`0..insns_size-1`. -/
def emitByteAccesses (n : Nat) : List Nat := List.range n

/-- The `strlen("/system/framework/")`-bounded comparison
`strncmp(location, prefix, strlen(prefix)) == 0` on C strings, modelled on
character lists: true iff the second list is an initial segment of the
first. -/
def startsWithChars : List Char → List Char → Bool
  | _, [] => true
  | [], _ :: _ => false
  | c :: cs, p :: ps => c == p && startsWithChars cs ps

/-- The system-framework location test of `PostClassPrepare`, with the
constant `"/system/framework/"` spelled as its character list. -/
def sysFrameworkChars : List Char :=
  ['/', 's', 'y', 's', 't', 'e', 'm', '/', 'f', 'r', 'a', 'm', 'e', 'w', 'o', 'r', 'k', '/']

/-- A class as seen by `MiniTrace::PostClassPrepare` and the dump visitor:
the four kind predicates, the dex-file location
(`klass->GetDexFile().GetLocation()`, modelled as its character list for the
`strncmp` test), the `IsMiniTraceable` flag, and the declared methods. -/
structure KlassM where
  isMiniTraceable : Bool
  isArrayClass : Bool
  isInterface : Bool
  isPrimitive : Bool
  isProxyClass : Bool
  dexLocation : List Char
  methods : List MethodInfo

/-- The kind filter of `PostClassPrepare`:
`klass->IsArrayClass() || klass->IsInterface() || klass->IsPrimitive() || klass->IsProxyClass()`. -/
def excludedKind (k : KlassM) : Bool :=
  k.isArrayClass || k.isInterface || k.isPrimitive || k.isProxyClass

/-- The location filter of `PostClassPrepare`: the dex location begins with
`"/system/framework/"`. -/
def inSystemFramework (k : KlassM) : Bool :=
  startsWithChars k.dexLocation sysFrameworkChars

/-- Result of one `PostClassPrepare` call: the class afterwards, whether
`SetIsMiniTraceable()` was called (`marked`), and whether
`InstallStubsForClass` was called (`stubsInstalled`). -/
structure PrepResult where
  klass : KlassM
  marked : Bool
  stubsInstalled : Bool

/-- MiniTrace::PostClassPrepare, translated branch by branch: return on the
kind filter, return on the `/system/framework/` location, otherwise
`SetIsMiniTraceable()` and, if `IsMiniTraceActive()`, install stubs.
`active` is the value of `IsMiniTraceActive()` at the time of the call. -/
def PostClassPrepare (active : Bool) (k : KlassM) : PrepResult :=
  if excludedKind k then ⟨k, false, false⟩
  else if inSystemFramework k then ⟨k, false, false⟩
  else ⟨{ k with isMiniTraceable := true }, true, active⟩

/-- A record appended to the per-user coverage file: a `Start` envelope
line, a `Dump` envelope line, or one method coverage line.  The pid and
millisecond timestamp printed in the envelopes carry no information the
claims depend on and are omitted. -/
inductive CovRec where
  | startEnv : CovRec
  | dumpEnv : CovRec
  | line : CovLine → CovRec

/-- The per-class inner loop of `DumpCoverageDataClassVisitor::operator()`:
`MiniTrace::DumpCoverageData(*os_, &method)` for each declared method (the
pointers passed are never null). -/
def dumpMethods : List MethodInfo → List CovRec × List MethodInfo
  | [] => ([], [])
  | m :: ms =>
    let r := DumpCoverageDataCore m
    let rest := dumpMethods ms
    ((match r.1 with
      | some l => [CovRec.line l]
      | none => []) ++ rest.1,
     r.2 :: rest.2)

/-- DumpCoverageDataClassVisitor::operator(): skip classes with
`!klass->IsMiniTraceable()`, otherwise dump every declared method. -/
def dumpClass (k : KlassM) : List CovRec × KlassM :=
  if k.isMiniTraceable then
    let r := dumpMethods k.methods
    (r.1, { k with methods := r.2 })
  else ([], k)

/-- ClassLinker::VisitClasses with the dump visitor: every loaded class in
order. -/
def walkClasses : List KlassM → List CovRec × List KlassM
  | [] => ([], [])
  | k :: ks =>
    let r := dumpClass k
    let rest := walkClasses ks
    (r.1 ++ rest.1, r.2 :: rest.2)

/-- The runtime state the lifecycle operations act on.  `theTrace` models
the singleton `the_trace_ != nullptr`; `configExists` and `configOpenable`
model `OS::FileExists` and the `std::ifstream` open of
`/data/mini_trace_<uid>_config.in`; `coverageFileOk` models a successful
open-or-create of `/data/mini_trace_<uid>_coverage.dat`; `writeOk` models
`file->WriteFully` succeeding; `output` is the sequence of records
successfully appended to the coverage file. -/
structure RTState where
  theTrace : Bool
  configExists : Bool
  configOpenable : Bool
  coverageFileOk : Bool
  writeOk : Bool
  listenerRegistered : Bool
  methodTracingEnabled : Bool
  classes : List KlassM
  output : List CovRec

/-- MiniTrace::IsMiniTraceActive(): `the_trace_ != nullptr`. -/
def IsMiniTraceActive (s : RTState) : Bool := s.theTrace

/-- MiniTrace::DumpCoverageData(bool start): return if
`!IsMiniTraceActive()`; return if the coverage file cannot be opened or
created; for `start` write only the `Start` envelope; otherwise build the
`Dump` envelope plus the full class walk (which clears coverage bytes while
formatting, before the write) and append it; on a failed `WriteFully` the
file is erased, so nothing is appended, but the bytes cleared during
formatting stay cleared. -/
def DumpCoverageDataFile (start : Bool) (s : RTState) : RTState :=
  if !IsMiniTraceActive s then s
  else if !s.coverageFileOk then s
  else if start then
    if s.writeOk then { s with output := s.output ++ [CovRec.startEnv] } else s
  else
    let r := walkClasses s.classes
    if s.writeOk then
      { s with classes := r.2, output := s.output ++ (CovRec.dumpEnv :: r.1) }
    else
      { s with classes := r.2 }

/-- MiniTrace::Start(), sequentially: return if `the_trace_ != nullptr`;
return if the config file is absent or unopenable; otherwise create the
session, add the listener, enable method tracing, run `PostClassPrepare` on
every loaded class (with tracing now active), and finally
`DumpCoverageData(true)`. -/
def Start (s : RTState) : RTState :=
  if s.theTrace then s
  else if !s.configExists then s
  else if !s.configOpenable then s
  else
    let s1 : RTState :=
      { s with theTrace := true, listenerRegistered := true, methodTracingEnabled := true }
    let s2 : RTState :=
      { s1 with classes := s1.classes.map (fun k => (PostClassPrepare true k).klass) }
    DumpCoverageDataFile true s2

/-- MiniTrace::Stop(): take (and clear) the session pointer; if a session
existed, disable method tracing and remove the listener; then call
`DumpCoverageData(false)` — at which point `the_trace_` is already null. -/
def Stop (s : RTState) : RTState :=
  let hadTrace := s.theTrace
  let s1 : RTState := { s with theTrace := false }
  let s2 : RTState :=
    if hadTrace then { s1 with methodTracingEnabled := false, listenerRegistered := false }
    else s1
  DumpCoverageDataFile false s2

/-- MiniTrace::Shutdown(): Stop only if currently active. -/
def Shutdown (s : RTState) : RTState :=
  if IsMiniTraceActive s then Stop s else s

/-- The four non-null checks of the per-method dump all passing. -/
def passesChecks (m : MethodInfo) : Prop :=
  m.isMiniTraceable = true ∧ m.hasCodeItem = true ∧ m.hasCoverage = true ∧ m.insnsSize ≠ 0

instance (m : MethodInfo) : Decidable (passesChecks m) := by
  unfold passesChecks
  infer_instance

/-- The shift in the fast-scan bound is division by two. -/
theorem shiftRight_one_eq (n : Nat) : n >>> 1 = n / 2 := by
  simp [Nat.shiftRight_eq_div_pow]

/-- Closed form of the emit loop: the characters are determined pointwise by
the initial memory (the loop reads index `i + k` strictly after its only
write to smaller indices), and the final memory is the initial memory with
the visited range zeroed. -/
theorem dumpLoop_eq (fuel : Nat) :
    ∀ (data : Nat → Nat) (i : Nat),
      dumpLoop data i fuel =
        ((List.range fuel).map (fun k => emitChar data (i + k)),
         fun j => if i ≤ j ∧ j < i + fuel then 0 else data j) := by
  induction fuel with
  | zero =>
    intro data i
    refine Prod.ext rfl ?_
    funext j
    show data j = if i ≤ j ∧ j < i + 0 then 0 else data j
    rw [if_neg (by omega)]
  | succ fuel ih =>
    intro data i
    by_cases hd : (data i != 0) = true
    · have hstep :
          dumpLoop data i (fuel + 1) =
            ('1' :: (dumpLoop (fun j => if j = i then 0 else data j) (i + 1) fuel).1,
             (dumpLoop (fun j => if j = i then 0 else data j) (i + 1) fuel).2) := by
        simp only [dumpLoop, hd, if_true]
      rw [hstep, ih]
      refine Prod.ext ?_ ?_
      · show '1' :: List.map _ (List.range fuel) = List.map _ (List.range (fuel + 1))
        rw [List.range_succ_eq_map, List.map_cons, List.map_map]
        have h0 : emitChar data (i + 0) = '1' := by
          simp [emitChar, hd]
        have hfun :
            ((fun k => emitChar data (i + k)) ∘ Nat.succ) =
              (fun k => emitChar (fun j => if j = i then 0 else data j) (i + 1 + k)) := by
          funext k
          show emitChar data (i + (k + 1)) = emitChar (fun j => if j = i then 0 else data j) (i + 1 + k)
          have hne : i + 1 + k ≠ i := by omega
          have harg : i + (k + 1) = i + 1 + k := by omega
          simp [emitChar, harg, hne]
        rw [h0, hfun]
      · show (fun j => if i + 1 ≤ j ∧ j < i + 1 + fuel then 0
               else if j = i then 0 else data j) =
            (fun j => if i ≤ j ∧ j < i + (fuel + 1) then 0 else data j)
        funext j
        by_cases hji : j = i
        · subst hji
          rw [if_neg (by omega), if_pos rfl, if_pos (by omega)]
        · by_cases hin : i ≤ j ∧ j < i + (fuel + 1)
          · rw [if_pos (by omega), if_pos hin]
          · rw [if_neg (by omega), if_neg hji, if_neg hin]
    · have hstep :
          dumpLoop data i (fuel + 1) =
            ('0' :: (dumpLoop data (i + 1) fuel).1, (dumpLoop data (i + 1) fuel).2) := by
        simp only [dumpLoop, hd]
        simp at hd
        simp [hd]
      rw [hstep, ih]
      refine Prod.ext ?_ ?_
      · show '0' :: List.map _ (List.range fuel) = List.map _ (List.range (fuel + 1))
        rw [List.range_succ_eq_map, List.map_cons, List.map_map]
        have h0 : emitChar data (i + 0) = '0' := by
          simp only [emitChar, Nat.add_zero]
          simp at hd
          simp [hd]
        have hfun :
            ((fun k => emitChar data (i + k)) ∘ Nat.succ) =
              (fun k => emitChar data (i + 1 + k)) := by
          funext k
          show emitChar data (i + (k + 1)) = emitChar data (i + 1 + k)
          have harg : i + (k + 1) = i + 1 + k := by omega
          rw [harg]
        rw [h0, hfun]
      · funext j
        show (if i + 1 ≤ j ∧ j < i + 1 + fuel then 0 else data j) =
            if i ≤ j ∧ j < i + (fuel + 1) then 0 else data j
        by_cases hji : j = i
        · subst hji
          rw [if_neg (by omega), if_pos (by omega)]
          simp at hd
          exact hd
        · by_cases hin : i ≤ j ∧ j < i + (fuel + 1)
          · rw [if_pos (by omega), if_pos hin]
          · rw [if_neg (by omega), if_neg hin]

/-- Specialization of the closed form to the actual call site (`i = 0`). -/
theorem dumpLoop_zero (data : Nat → Nat) (n : Nat) :
    dumpLoop data 0 n =
      ((List.range n).map (emitChar data), fun j => if j < n then 0 else data j) := by
  rw [dumpLoop_eq]
  refine Prod.ext ?_ ?_
  · show List.map _ _ = List.map _ _
    simp
  · funext j
    show (if 0 ≤ j ∧ j < 0 + n then 0 else data j) = if j < n then 0 else data j
    by_cases h : j < n
    · rw [if_pos ⟨Nat.zero_le j, by omega⟩, if_pos h]
    · rw [if_neg (by omega), if_neg h]

/-- The fast-path scan succeeds exactly when some scanned word has a nonzero
byte. -/
theorem fastScan_iff (data : Nat → Nat) (n : Nat) :
    fastScanVisited data n = true ↔
      ∃ i, i ≤ n >>> 1 ∧
        (data (4 * i) ≠ 0 ∨ data (4 * i + 1) ≠ 0 ∨ data (4 * i + 2) ≠ 0 ∨ data (4 * i + 3) ≠ 0) := by
  simp only [fastScanVisited, wordNonzero, List.any_eq_true, List.mem_range, Nat.lt_succ_iff,
    Bool.or_eq_true, bne_iff_ne, ne_eq]
  constructor
  · rintro ⟨x, hx, h⟩
    exact ⟨x, hx, by tauto⟩
  · rintro ⟨x, hx, h⟩
    exact ⟨x, hx, by tauto⟩

/-- A nonzero byte anywhere in the scanned word range makes the fast-path
scan succeed. -/
theorem fastScan_of_byte (data : Nat → Nat) (n j : Nat)
    (hj : j < 4 * (n >>> 1 + 1)) (hd : data j ≠ 0) :
    fastScanVisited data n = true := by
  rw [fastScan_iff]
  refine ⟨j / 4, by omega, ?_⟩
  have h4 : j % 4 = 0 ∨ j % 4 = 1 ∨ j % 4 = 2 ∨ j % 4 = 3 := by omega
  rcases h4 with h | h | h | h
  · exact Or.inl (by rw [show 4 * (j / 4) = j by omega]; exact hd)
  · exact Or.inr (Or.inl (by rw [show 4 * (j / 4) + 1 = j by omega]; exact hd))
  · exact Or.inr (Or.inr (Or.inl (by rw [show 4 * (j / 4) + 2 = j by omega]; exact hd)))
  · exact Or.inr (Or.inr (Or.inr (by rw [show 4 * (j / 4) + 3 = j by omega]; exact hd)))

/-- If the fast-path scan finds nothing, every byte in the scanned range is
zero. -/
theorem byte_zero_of_fastScan_false (data : Nat → Nat) (n j : Nat)
    (h : fastScanVisited data n = false) (hj : j < 4 * (n >>> 1 + 1)) :
    data j = 0 := by
  by_contra hd
  have := fastScan_of_byte data n j hj hd
  rw [h] at this
  exact Bool.false_ne_true this

/-- Memory that is zero everywhere makes the fast-path scan fail. -/
theorem fastScan_false_of_zero (data : Nat → Nat) (n : Nat)
    (h : ∀ j, data j = 0) : fastScanVisited data n = false := by
  by_contra hb
  have ht : fastScanVisited data n = true := by
    cases hv : fastScanVisited data n
    · exact absurd hv hb
    · rfl
  obtain ⟨i, _, hi⟩ := (fastScan_iff data n).mp ht
  rcases hi with hx | hx | hx | hx <;> exact hx (h _)

/-- The coverage memory after a successful emit: the emit range zeroed. -/
def clearedCov (data : Nat → Nat) (n : Nat) : Nat → Nat :=
  fun j => if j < n then 0 else data j

/-- The line a method emits when it is not skipped. -/
def mkLine (m : MethodInfo) : CovLine :=
  { methodId := m.methodId
    declaringClass := m.declaringClassDescriptor
    methodName := m.methodName
    signature := m.signature
    sourceFile := m.sourceFile
    insns := m.insnsSize
    bits := (List.range m.insnsSize).map (emitChar m.coverage) }

/-- Once the four non-null checks pass, the per-method dump is exactly the
fast-path decision followed by the emit loop in closed form. -/
theorem core_eq_of_checks (m : MethodInfo) (hc : passesChecks m) :
    DumpCoverageDataCore m =
      if m.coverage 0 == 0 && !fastScanVisited m.coverage m.insnsSize then (none, m)
      else (some (mkLine m), { m with coverage := clearedCov m.coverage m.insnsSize }) := by
  obtain ⟨h1, h2, h3, h4⟩ := hc
  simp only [DumpCoverageDataCore, h1, h2, h3, Bool.not_true, Bool.false_eq_true, if_false,
    beq_iff_eq, h4, dumpLoop_zero, mkLine, clearedCov]
  rfl

/-- The `data[0] == 0` shortcut never changes the skip decision: a nonzero
byte 0 already makes the word scan succeed at word 0. -/
theorem skipCond_eq (data : Nat → Nat) (n : Nat) :
    ((data 0 == 0) && !fastScanVisited data n) = !fastScanVisited data n := by
  by_cases h : data 0 = 0
  · simp [h]
  · have hp : 0 < 4 * (n >>> 1 + 1) := by
      have := Nat.zero_le (n >>> 1)
      omega
    have ht : fastScanVisited data n = true := fastScan_of_byte data n 0 hp h
    simp [ht, h]

/-- The per-method dump with the fast path equals the reference version that
always scans. -/
theorem core_eq_noFast (m : MethodInfo) :
    DumpCoverageDataCore m = DumpCoverageDataNoFast m := by
  unfold DumpCoverageDataCore DumpCoverageDataNoFast
  rw [skipCond_eq]

/-- The emit-loop range never exceeds the worst-case scan range. -/
theorem insns_le_scan_bound (n : Nat) : n ≤ 4 * (n >>> 1 + 1) := by
  rw [shiftRight_one_eq]
  omega

/-- The spec's granule count never exceeds the emit-loop range. -/
theorem ceilHalf_le (n : Nat) : ceilHalf n ≤ n ∨ n = 0 := by
  unfold ceilHalf
  omega

/-- A fully eligible method with the given coverage memory and instruction
count, for concrete checks. -/
def mkMethod (cov : Nat → Nat) (n : Nat) : MethodInfo :=
  { methodId := 0
    isMiniTraceable := true
    hasCodeItem := true
    hasCoverage := true
    coverage := cov
    insnsSize := n
    declaringClassDescriptor := "LExample;"
    methodName := "run"
    signature := "()V"
    sourceFile := "Example.java" }

/-- An eligible application class (no excluded kind, non-system location). -/
def kEx : KlassM :=
  { isMiniTraceable := false
    isArrayClass := false
    isInterface := false
    isPrimitive := false
    isProxyClass := false
    dexLocation := ['/', 'd', 'a', 't', 'a', '/', 'a', 'p', 'p', '/', 'x']
    methods := [] }

/-- An inactive runtime state with no config file. -/
def rtEx : RTState :=
  { theTrace := false
    configExists := false
    configOpenable := false
    coverageFileOk := true
    writeOk := true
    listenerRegistered := false
    methodTracingEnabled := false
    classes := []
    output := [] }

/-- The same state with a live trace session. -/
def rtActive : RTState := { rtEx with theTrace := true }

/-- Claim C1: the claim says every `Stop()` call ends with a full coverage
dump (a `Dump` envelope plus the eligible-class walk) regardless of whether
a session existed.  In the code, `Stop` clears `the_trace_` before calling
`DumpCoverageData(false)`, whose first check `!IsMiniTraceActive()` then
always succeeds, so `Stop` never appends anything to the coverage file and
never runs the class walk — for any state, with or without a session. -/
theorem stop_performs_no_dump (s : RTState) :
    (Stop s).output = s.output ∧ (Stop s).classes = s.classes := by
  unfold Stop DumpCoverageDataFile IsMiniTraceActive
  cases hT : s.theTrace <;> simp [hT]

/-- Claim C6: `PostClassPrepare` calls `SetIsMiniTraceable` exactly when the
class is none of array/interface/primitive/proxy and its dex location does
not begin with `/system/framework/`; the resulting flag is the old flag or
that condition; and stubs are installed exactly when the condition holds and
tracing is active — so an excluded class never gets stubs for any value of
`active`. -/
theorem postClassPrepare_eligibility (active : Bool) (k : KlassM) :
    (PostClassPrepare active k).marked = (!excludedKind k && !inSystemFramework k)
    ∧ (PostClassPrepare active k).klass.isMiniTraceable
        = (k.isMiniTraceable || (!excludedKind k && !inSystemFramework k))
    ∧ (PostClassPrepare active k).stubsInstalled
        = (!excludedKind k && !inSystemFramework k && active) := by
  unfold PostClassPrepare
  cases hE : excludedKind k <;> cases hP : inSystemFramework k <;> simp [hE, hP]

/-- Claim C7: for a class passing both filters, stubs are installed iff
tracing is active; the class is always marked eligible; and re-running
`PostClassPrepare` on the already-marked class returns the same result
(the flag is set again to `true`, nothing else changes). -/
theorem postClassPrepare_eligible_stubs (active : Bool) (k : KlassM)
    (h1 : excludedKind k = false) (h2 : inSystemFramework k = false) :
    (PostClassPrepare active k).stubsInstalled = active
    ∧ (PostClassPrepare active k).klass.isMiniTraceable = true
    ∧ PostClassPrepare active ((PostClassPrepare active k).klass) = PostClassPrepare active k := by
  have h1' : excludedKind { k with isMiniTraceable := true } = false := by
    simpa [excludedKind] using h1
  have h2' : inSystemFramework { k with isMiniTraceable := true } = false := by
    simpa [inSystemFramework] using h2
  unfold PostClassPrepare
  simp [h1, h2, h1', h2']

/-- Witness for C7 at a concrete eligible class with tracing inactive. -/
theorem postClassPrepare_eligible_stubs_witness :
    (excludedKind kEx = false ∧ inSystemFramework kEx = false)
    ∧ (PostClassPrepare false kEx).stubsInstalled = false
    ∧ (PostClassPrepare false kEx).klass.isMiniTraceable = true :=
  ⟨⟨by decide, by decide⟩,
   (postClassPrepare_eligible_stubs false kEx (by decide) (by decide)).1,
   (postClassPrepare_eligible_stubs false kEx (by decide) (by decide)).2.1⟩

/-- Claim C8: if the per-user config file does not exist or cannot be
opened, `Start` changes nothing at all: the state (session, listener,
method-tracing mode, coverage-file contents) is returned unchanged, and
`IsMiniTraceActive` is unchanged. -/
theorem start_refused_without_config (s : RTState)
    (h : s.configExists = false ∨ s.configOpenable = false) :
    Start s = s ∧ IsMiniTraceActive (Start s) = IsMiniTraceActive s := by
  have hs : Start s = s := by
    unfold Start
    rcases h with h | h
    · cases hT : s.theTrace <;> simp [hT, h]
    · cases hT : s.theTrace <;> cases hE : s.configExists <;> simp [hT, hE, h]
  exact ⟨hs, by rw [hs]⟩

/-- Witness for C8 at a concrete inactive state with no config file. -/
theorem start_refused_without_config_witness :
    rtEx.configExists = false ∧ Start rtEx = rtEx :=
  ⟨rfl, (start_refused_without_config rtEx (Or.inl rfl)).1⟩

/-- Claim C9: `Start` with a session already present returns the state
unchanged (the guard returns before any creation, registration, or write),
and `Stop` with no session returns the state unchanged (the guard only
logs, and the subsequent `DumpCoverageData(false)` returns at its
`IsMiniTraceActive` check) — so `IsActive` before/after matches. -/
theorem start_stop_noop_when_redundant (s : RTState) :
    (s.theTrace = true → Start s = s) ∧ (s.theTrace = false → Stop s = s) := by
  constructor
  · intro hT
    unfold Start
    simp [hT]
  · intro hT
    obtain ⟨tr, c1, c2, c3, c4, c5, c6, cls, out⟩ := s
    simp only at hT
    subst hT
    unfold Stop DumpCoverageDataFile IsMiniTraceActive
    simp

/-- Witness for C9: a redundant `Start` on an active state and a redundant
`Stop` on an inactive state, both concrete. -/
theorem start_stop_noop_when_redundant_witness :
    (rtActive.theTrace = true ∧ Start rtActive = rtActive)
    ∧ (rtEx.theTrace = false ∧ Stop rtEx = rtEx) :=
  ⟨⟨rfl, (start_stop_noop_when_redundant rtActive).1 rfl⟩,
   ⟨rfl, (start_stop_noop_when_redundant rtEx).2 rfl⟩⟩

/-- Claim C10: the per-method dump emits nothing and leaves the method
(including every coverage byte) unchanged when the method is null, is not
marked traceable, has no code item, has a null coverage pointer, or has
zero instructions. -/
theorem dump_skips_ineligible (m : MethodInfo)
    (h : m.isMiniTraceable = false ∨ m.hasCodeItem = false ∨ m.hasCoverage = false
        ∨ m.insnsSize = 0) :
    DumpCoverageDataCore m = (none, m) ∧ DumpCoverageDataPtr none = (none, none) := by
  refine ⟨?_, rfl⟩
  unfold DumpCoverageDataCore
  rcases h with h | h | h | h
  · simp [h]
  · cases h1 : m.isMiniTraceable <;> simp [h1, h]
  · cases h1 : m.isMiniTraceable <;> cases h2 : m.hasCodeItem <;> simp [h1, h2, h]
  · cases h1 : m.isMiniTraceable <;> cases h2 : m.hasCodeItem <;> cases h3 : m.hasCoverage <;>
      simp [h1, h2, h3, h]

/-- A method with a null coverage pointer. -/
def mNoCov : MethodInfo := { mkMethod (fun _ => 0) 4 with hasCoverage := false }

/-- Witness for C10 at a concrete method whose coverage pointer is null. -/
theorem dump_skips_ineligible_witness :
    mNoCov.hasCoverage = false ∧ DumpCoverageDataCore mNoCov = (none, mNoCov) :=
  ⟨rfl, (dump_skips_ineligible mNoCov (Or.inr (Or.inr (Or.inl rfl)))).1⟩

/-- An eligible 4-instruction-unit method whose memory is zero on every
granule byte (indices below `ceilHalf 4 = 2`) but nonzero at offset 5,
inside the fast scan's word range. -/
def mC2x : MethodInfo := mkMethod (fun i => if i = 5 then 1 else 0) 4

/-- Counterexample to claim C2 as stated: all granule bytes (one byte per
two instruction units, indices `< ceilHalf insnsSize = 2`) are zero at dump
time, yet a coverage line is emitted, because the fast scan reads 32-bit
words covering byte offsets 0..11 and finds the nonzero byte at offset 5.
So "a line appears iff some granule byte was nonzero" fails on the code. -/
theorem dump_line_despite_zero_granules :
    ceilHalf mC2x.insnsSize = 2
    ∧ mC2x.coverage 0 = 0 ∧ mC2x.coverage 1 = 0
    ∧ (DumpCoverageDataCore mC2x).1.isSome = true :=
  ⟨rfl, rfl, rfl, rfl⟩

/-- Claim C2 amended: under the additional hypothesis (implicit in the
spec's data model, but not guaranteed by the code's raw pointer reads) that
every byte at or beyond the granule count `ceilHalf insnsSize` reads as
zero, the claim holds: a line appears iff some granule byte was nonzero;
after a line is written every byte the loop visits is zero (hence every
granule byte); and dumping the same method again with no intervening
execution emits no line at all (so no further `1` characters). -/
theorem dump_drain_iff_granules (m : MethodInfo) (hc : passesChecks m)
    (hz : ∀ i, ceilHalf m.insnsSize ≤ i → m.coverage i = 0) :
    ((DumpCoverageDataCore m).1.isSome = true ↔
        ∃ j, j < ceilHalf m.insnsSize ∧ m.coverage j ≠ 0)
    ∧ ((DumpCoverageDataCore m).1.isSome = true →
        ∀ j, (DumpCoverageDataCore m).2.coverage j = 0)
    ∧ (DumpCoverageDataCore ((DumpCoverageDataCore m).2)).1 = none := by
  have hn : m.insnsSize ≠ 0 := hc.2.2.2
  have hhalf : ceilHalf m.insnsSize ≤ m.insnsSize := by
    unfold ceilHalf
    omega
  have hscan : ceilHalf m.insnsSize ≤ 4 * (m.insnsSize >>> 1 + 1) := by
    rw [shiftRight_one_eq]
    unfold ceilHalf
    omega
  rw [core_eq_of_checks m hc]
  by_cases hskip : (m.coverage 0 == 0 && !fastScanVisited m.coverage m.insnsSize) = true
  · rw [if_pos hskip]
    have hfs : fastScanVisited m.coverage m.insnsSize = false := by
      have h2 := (Bool.and_eq_true _ _).mp hskip |>.2
      simpa using h2
    refine ⟨?_, ?_, ?_⟩
    · constructor
      · intro hsome
        exact absurd hsome (by simp)
      · rintro ⟨j, hj, hnz⟩
        exact absurd (byte_zero_of_fastScan_false _ _ j hfs (by omega)) hnz
    · intro hsome
      exact absurd hsome (by simp)
    · show (DumpCoverageDataCore m).1 = none
      rw [core_eq_of_checks m hc, if_pos hskip]
  · rw [if_neg hskip]
    have hvis : m.coverage 0 ≠ 0 ∨ fastScanVisited m.coverage m.insnsSize = true := by
      by_cases h0 : m.coverage 0 = 0
      · right
        cases hv : fastScanVisited m.coverage m.insnsSize
        · exact absurd (by simp [h0, hv]) hskip
        · rfl
      · exact Or.inl h0
    refine ⟨?_, ?_, ?_⟩
    · constructor
      · intro _
        rcases hvis with h0 | hf
        · exact ⟨0, by unfold ceilHalf; omega, h0⟩
        · obtain ⟨i, hi, hb⟩ := (fastScan_iff _ _).mp hf
          rcases hb with h | h | h | h
          · refine ⟨4 * i, ?_, h⟩
            by_contra hge
            exact h (hz _ (by omega))
          · refine ⟨4 * i + 1, ?_, h⟩
            by_contra hge
            exact h (hz _ (by omega))
          · refine ⟨4 * i + 2, ?_, h⟩
            by_contra hge
            exact h (hz _ (by omega))
          · refine ⟨4 * i + 3, ?_, h⟩
            by_contra hge
            exact h (hz _ (by omega))
      · intro _
        rfl
    · intro _ j
      show clearedCov m.coverage m.insnsSize j = 0
      unfold clearedCov
      by_cases hjn : j < m.insnsSize
      · rw [if_pos hjn]
      · rw [if_neg hjn]
        exact hz j (by omega)
    · show (DumpCoverageDataCore { m with coverage := clearedCov m.coverage m.insnsSize }).1 = none
      have hc' : passesChecks { m with coverage := clearedCov m.coverage m.insnsSize } := by
        obtain ⟨a, b, c, d⟩ := hc
        exact ⟨a, b, c, d⟩
      have hall : ∀ j, clearedCov m.coverage m.insnsSize j = 0 := by
        intro j
        unfold clearedCov
        by_cases hjn : j < m.insnsSize
        · rw [if_pos hjn]
        · rw [if_neg hjn]
          exact hz j (by omega)
      rw [core_eq_of_checks _ hc']
      rw [if_pos ?_]
      show ((clearedCov m.coverage m.insnsSize 0 == 0)
          && !fastScanVisited (clearedCov m.coverage m.insnsSize) m.insnsSize) = true
      rw [fastScan_false_of_zero _ _ hall]
      simp [hall 0]

/-- An eligible 2-instruction-unit method with one newly executed granule. -/
def mC2w : MethodInfo := mkMethod (fun i => if i = 0 then 1 else 0) 2

/-- Witness for C2 (amended) at a concrete method: after the first dump
drains the nonzero byte, a second dump emits nothing. -/
theorem dump_drain_iff_granules_witness :
    (DumpCoverageDataCore ((DumpCoverageDataCore mC2w).2)).1 = none :=
  (dump_drain_iff_granules mC2w (by decide)
    (fun i hi => by
      have h1 : ceilHalf mC2w.insnsSize = 1 := rfl
      rw [h1] at hi
      show (if i = 0 then 1 else 0) = 0
      rw [if_neg (by omega)])).2.2

/-- An eligible 2-instruction-unit method whose emit-range bytes (offsets 0
and 1) are zero but whose memory is nonzero at offset 5, inside the fast
scan's word range (words 0..1, byte offsets 0..7). -/
def mC3x : MethodInfo := mkMethod (fun i => if i = 5 then 1 else 0) 2

/-- Counterexample to claim C3 as stated: every byte the emit loop would
report (indices 0 through `insns_size - 1`) is zero, yet the method is not
skipped — a line is emitted — because the fast scan's word range extends
beyond the emit range and finds the nonzero byte at offset 5.  So "skipped
iff every byte in the emit range is zero" fails on the code. -/
theorem fastpath_emits_despite_zero_emit_range :
    mC3x.insnsSize = 2
    ∧ mC3x.coverage 0 = 0 ∧ mC3x.coverage 1 = 0
    ∧ (DumpCoverageDataCore mC3x).1.isSome = true :=
  ⟨rfl, rfl, rfl, rfl⟩

/-- Claim C3 amended: with the additional hypothesis that every byte at or
beyond `insns_size` reads as zero, the method is skipped iff every byte in
the emit range 0..insns_size-1 is zero; and — unconditionally — the dump
with the fast path produces output identical to the reference version that
always scans (`DumpCoverageDataNoFast`), so the `data[0]` shortcut itself
is indeed no semantic difference. -/
theorem fastpath_equiv (m : MethodInfo) (hc : passesChecks m)
    (hz : ∀ i, m.insnsSize ≤ i → m.coverage i = 0) :
    ((DumpCoverageDataCore m).1 = none ↔ ∀ j, j < m.insnsSize → m.coverage j = 0)
    ∧ DumpCoverageDataCore m = DumpCoverageDataNoFast m := by
  refine ⟨?_, core_eq_noFast m⟩
  have hn : m.insnsSize ≠ 0 := hc.2.2.2
  rw [core_eq_of_checks m hc]
  by_cases hskip : (m.coverage 0 == 0 && !fastScanVisited m.coverage m.insnsSize) = true
  · rw [if_pos hskip]
    have hfs : fastScanVisited m.coverage m.insnsSize = false := by
      have h2 := (Bool.and_eq_true _ _).mp hskip |>.2
      simpa using h2
    constructor
    · intro _ j hj
      have := insns_le_scan_bound m.insnsSize
      exact byte_zero_of_fastScan_false _ _ j hfs (by omega)
    · intro _
      rfl
  · rw [if_neg hskip]
    constructor
    · intro h
      exact absurd h (by simp)
    · intro hall
      exfalso
      apply hskip
      have h0 : m.coverage 0 = 0 := hall 0 (by omega)
      have hfs : fastScanVisited m.coverage m.insnsSize = false :=
        fastScan_false_of_zero _ _ (fun j => by
          by_cases hjn : j < m.insnsSize
          · exact hall j hjn
          · exact hz j (by omega))
      simp [h0, hfs]

/-- Witness for C3 (amended) at a concrete method: the fast-path dump and
the always-scanning reference coincide. -/
theorem fastpath_equiv_witness :
    DumpCoverageDataCore mC2w = DumpCoverageDataNoFast mC2w :=
  (fastpath_equiv mC2w (by decide)
    (fun i hi => by
      have h1 : mC2w.insnsSize = 2 := rfl
      rw [h1] at hi
      show (if i = 0 then 1 else 0) = 0
      rw [if_neg (by omega)])).2

/-- Claim C4: for a method that passes all the skip checks (so a line is
emitted), the emitted `0`/`1` run has exactly `insns_size` characters — the
raw instruction-unit count, which is also the count printed in the line's
instruction-count field — and character `i` is `1` exactly when byte `i`
was nonzero.  The bound is the character count `insns_size` itself,
independent of the half-length `insns_size >> 1` used by the fast scan. -/
theorem emit_line_char_per_insn (m : MethodInfo) (l : CovLine)
    (hc : passesChecks m) (h : (DumpCoverageDataCore m).1 = some l) :
    l.insns = m.insnsSize
    ∧ l.bits.length = m.insnsSize
    ∧ ∀ i, i < m.insnsSize → (l.bits[i]? = some '1' ↔ m.coverage i ≠ 0) := by
  rw [core_eq_of_checks m hc] at h
  by_cases hskip : (m.coverage 0 == 0 && !fastScanVisited m.coverage m.insnsSize) = true
  · rw [if_pos hskip] at h
    exact absurd h (by simp)
  · rw [if_neg hskip] at h
    have hl : l = mkLine m := by
      have h' : some (mkLine m) = some l := h
      exact (Option.some.inj h').symm
    subst hl
    refine ⟨rfl, ?_, ?_⟩
    · simp [mkLine]
    · intro i hi
      have hget : (mkLine m).bits[i]? = some (emitChar m.coverage i) := by
        simp [mkLine, List.getElem?_map, List.getElem?_range, hi]
      rw [hget]
      by_cases hzi : m.coverage i = 0
      · simp [emitChar, hzi]
      · simp [emitChar, hzi]

/-- Witness for C4 at a concrete 2-instruction-unit method whose first byte
is nonzero: the emitted line is `mkLine mC2w` with two characters. -/
theorem emit_line_char_per_insn_witness :
    passesChecks mC2w
    ∧ (DumpCoverageDataCore mC2w).1 = some (mkLine mC2w)
    ∧ (mkLine mC2w).bits.length = mC2w.insnsSize :=
  ⟨by decide, rfl,
   (emit_line_char_per_insn mC2w (mkLine mC2w) (by decide) rfl).2.1⟩

/-- An eligible 4-instruction-unit method whose only nonzero byte is at
offset 3: inside the emit range 0..3, but outside the spec's granule range
0..ceilHalf 4 - 1 = 0..1. -/
def mC5a : MethodInfo := mkMethod (fun i => if i = 3 then 1 else 0) 4

/-- The same method with all-zero memory. -/
def mC5b : MethodInfo := mkMethod (fun _ => 0) 4

/-- Counterexample to claim C5 as stated: the two methods agree on every
byte inside the claimed array bound `ceilHalf insnsSize = 2`, yet the dump
emits a line for one and not for the other — the dump's behaviour depends
on byte offset 3, so its accesses do not stay within a
`ceilHalf insnsSize`-byte array. -/
theorem dump_depends_on_bytes_beyond_granules :
    ceilHalf mC5a.insnsSize = 2
    ∧ mC5a.coverage 0 = mC5b.coverage 0 ∧ mC5a.coverage 1 = mC5b.coverage 1
    ∧ (DumpCoverageDataCore mC5a).1.isSome = true
    ∧ (DumpCoverageDataCore mC5b).1.isSome = false :=
  ⟨rfl, rfl, rfl, rfl, rfl⟩

/-- Claim C5 amended: the dump's byte accesses — the fast scan's worst-case
reads (words 0 through `insns_size >> 1` inclusive, four bytes each) and
the emit loop's reads/clears (bytes 0 through `insns_size - 1`) — all lie
below `4 * ((insns_size >> 1) + 1)` bytes, not below the
`ceil(insns_size/2)` granule count assumed by the claim: the array would
need at least that many readable bytes for every access to be in bounds. -/
theorem dump_access_bound (n j : Nat)
    (h : j ∈ scanByteReads n ∨ j ∈ emitByteAccesses n) :
    j < 4 * (n >>> 1 + 1) := by
  rcases h with h | h
  · unfold scanByteReads at h
    simp only [List.mem_flatMap, List.mem_range, List.mem_cons, List.not_mem_nil, or_false] at h
    obtain ⟨i, hi, hj⟩ := h
    rcases hj with rfl | rfl | rfl | rfl <;> omega
  · unfold emitByteAccesses at h
    rw [List.mem_range] at h
    have := insns_le_scan_bound n
    omega

/-- Witness for C5 (amended): byte offset 5 is read by the fast scan of a
2-instruction-unit method and is below the real bound 8. -/
theorem dump_access_bound_witness :
    (5 ∈ scanByteReads 2 ∨ 5 ∈ emitByteAccesses 2) ∧ 5 < 4 * (2 >>> 1 + 1) :=
  ⟨Or.inl (by decide), dump_access_bound 2 5 (Or.inl (by decide))⟩

end MiniTrace
